import Mathlib

/-!
Verification of the change-coalescing engine of folder-monitot.py.

The embedding below translates the FolderMonitor class into pure Lean
functions.  External effects (the local filesystem, the GitHub remote
accessed through PyGithub) are modelled as response functions packaged in
an Env record; every function that performs I/O additionally returns the
ordered trace of observable steps it takes (lock acquire and release,
local existence checks, remote API calls, printed messages), so that
properties about which calls are issued, and while which locks are held,
can be stated and proved.
-/

namespace FolderMonitor

/-- Bytes of a local file, as returned by reading it whole. -/
abbrev Bytes := List Nat

/-- The result object of repo.get_contents; the monitor only ever uses
its sha field (the revision token of the remote file). -/
structure Contents where
  sha : String
deriving DecidableEq, Repr

/-- Kinds of failure a remote (PyGithub) call can raise.  The Python code
catches bare Exception, so the taxonomy only matters for stating which
errors reach which handler. -/
inductive GhError where
  | notFound
  | network
  | other (msg : String)
deriving DecidableEq, Repr

/-- One remote API call issued by the monitor, with its arguments. -/
inductive RemoteCall where
  | getContents (github_path : String)
  | updateFile (github_path : String) (content : Bytes) (sha : String)
  | createFile (github_path : String) (content : Bytes)
  | deleteFile (github_path : String) (sha : String)
deriving DecidableEq, Repr

/-- The per-path messages the monitor prints, abstracted from the exact
format strings (timestamps and emoji dropped, the identifying argument
kept). -/
inductive PrintMsg where
  | syncingChanges (n : Nat)
  | updatedMsg (github_path : String)
  | createdMsg (github_path : String)
  | deletedMsg (github_path : String)
  | errorUploadingMsg (file_path : String)
  | errorDeletingMsg (file_path : String)
  | syncErrorMsg (file_path : String)
  | syncCompleted
deriving DecidableEq, Repr

/-- One observable step of an operation of the monitor. -/
inductive Step where
  | acquire
  | release
  | checkExists (path : String) (result : Bool)
  | call (c : RemoteCall)
  | print (m : PrintMsg)
deriving DecidableEq, Repr

/-- The external world as seen by one flush: the monitored root, the
local filesystem (a path maps to its current bytes when the path exists),
and the responses of the four remote API entry points the code uses.
An Except.error response models the corresponding PyGithub call raising. -/
structure Env where
  local_folder : String
  fs : String → Option Bytes
  getContents : String → Except GhError Contents
  updateFile : String → Bytes → String → Except GhError Unit
  createFile : String → Bytes → Except GhError Unit
  deleteRemote : String → String → Except GhError Unit

/-- Embedding of get_github_file_path (source lines 45-48):
Path(local_path).relative_to(self.local_folder) followed by replacing
backslashes with forward slashes.  relative_to raises when the path is
not under the monitored root, modelled as none. -/
def get_github_file_path (local_folder file_path : String) : Option String :=
  if local_folder.data.isPrefixOf file_path.data then
    some (String.mk ((file_path.data.drop (local_folder.data.length + 1)).map
      (fun c => if c = '\\' then '/' else c)))
  else
    none

/-- The outcome the monitor reaches for a single queued item. -/
inductive Outcome where
  | skippedDeleteStillExists
  | fileDeleted (github_path : String)
  | errorDeleting (file_path : String)
  | fileUpdated (github_path : String)
  | fileCreated (github_path : String)
  | errorUploading (file_path : String)
  | skippedUploadMissing
deriving DecidableEq, Repr

/-- Embedding of upload_file (source lines 50-82).  The outer try catches
the path conversion and the file read; the inner try wraps get_contents
and update_file, and any exception from either sends control to the
create_file branch; a create_file exception reaches the outer handler. -/
def upload_file (env : Env) (file_path : String) : Outcome × List Step :=
  match get_github_file_path env.local_folder file_path with
  | none => (.errorUploading file_path, [.print (.errorUploadingMsg file_path)])
  | some github_path =>
    match env.fs file_path with
    | none => (.errorUploading file_path, [.print (.errorUploadingMsg file_path)])
    | some content =>
      match env.getContents github_path with
      | .ok contents =>
        match env.updateFile github_path content contents.sha with
        | .ok _ =>
          (.fileUpdated github_path,
            [.call (.getContents github_path),
             .call (.updateFile github_path content contents.sha),
             .print (.updatedMsg github_path)])
        | .error _ =>
          match env.createFile github_path content with
          | .ok _ =>
            (.fileCreated github_path,
              [.call (.getContents github_path),
               .call (.updateFile github_path content contents.sha),
               .call (.createFile github_path content),
               .print (.createdMsg github_path)])
          | .error _ =>
            (.errorUploading file_path,
              [.call (.getContents github_path),
               .call (.updateFile github_path content contents.sha),
               .call (.createFile github_path content),
               .print (.errorUploadingMsg file_path)])
      | .error _ =>
        match env.createFile github_path content with
        | .ok _ =>
          (.fileCreated github_path,
            [.call (.getContents github_path),
             .call (.createFile github_path content),
             .print (.createdMsg github_path)])
        | .error _ =>
          (.errorUploading file_path,
            [.call (.getContents github_path),
             .call (.createFile github_path content),
             .print (.errorUploadingMsg file_path)])

/-- Embedding of delete_file (source lines 84-99).  A single try wraps
the path conversion, the get_contents lookup and the remote delete; any
exception, a NotFound from the lookup included, lands in the same handler
which prints a delete error for the path. -/
def delete_file (env : Env) (file_path : String) : Outcome × List Step :=
  match get_github_file_path env.local_folder file_path with
  | none => (.errorDeleting file_path, [.print (.errorDeletingMsg file_path)])
  | some github_path =>
    match env.getContents github_path with
    | .error _ =>
      (.errorDeleting file_path,
        [.call (.getContents github_path),
         .print (.errorDeletingMsg file_path)])
    | .ok contents =>
      match env.deleteRemote github_path contents.sha with
      | .ok _ =>
        (.fileDeleted github_path,
          [.call (.getContents github_path),
           .call (.deleteFile github_path contents.sha),
           .print (.deletedMsg github_path)])
      | .error _ =>
        (.errorDeleting file_path,
          [.call (.getContents github_path),
           .call (.deleteFile github_path contents.sha),
           .print (.errorDeletingMsg file_path)])

/-- The mutable state of the monitor that the claims are about: the
sync_queue (a Python set of pairs of path string and action string,
modelled as an insertion-ordered duplicate-free list) and the armed
timer, modelled by its absolute deadline. -/
structure MState where
  sync_queue : List (String × String)
  sync_timer : Option Nat
deriving DecidableEq, Repr

/-- Adding an element to a Python set: a no-op when the element is
already present, otherwise appended. -/
def insertOnce (q : List (String × String)) (x : String × String) :
    List (String × String) :=
  if x ∈ q then q else q ++ [x]

/-- Embedding of queue_sync (source lines 125-136): add the pair to the
set, cancel any armed timer and arm a fresh 30 second one, all under the
lock.  now is the current time; the new deadline is now + 30. -/
def queue_sync (s : MState) (now : Nat) (file_path action : String) : MState :=
  { sync_queue := insertOnce s.sync_queue (file_path, action),
    sync_timer := some (now + 30) }

/-- One iteration of the loop of sync_changes (source lines 110-120):
a deleted action is skipped when the path still exists locally, an other
action is attempted only when the path exists locally.  The item-level
except cannot be reached because upload_file and delete_file catch
everything themselves. -/
def sync_item (env : Env) (item : String × String) : Outcome × List Step :=
  if item.2 = "deleted" then
    if (env.fs item.1).isSome then
      (.skippedDeleteStillExists, [.checkExists item.1 true])
    else
      let r := delete_file env item.1
      (r.1, .checkExists item.1 false :: r.2)
  else
    if (env.fs item.1).isSome then
      let r := upload_file env item.1
      (r.1, .checkExists item.1 true :: r.2)
    else
      (.skippedUploadMissing, [.checkExists item.1 false])

/-- Embedding of sync_changes (source lines 101-123).  The whole body,
the early return for an empty queue included, runs inside with
self.sync_lock, so the trace is bracketed by acquire and release; the
queue is cleared at the end of the nonempty branch.  Returns the new
state, the list of per-item outcomes in iteration order, and the full
step trace. -/
def sync_changes (env : Env) (s : MState) :
    MState × List ((String × String) × Outcome) × List Step :=
  if s.sync_queue = [] then
    (s, [], [.acquire, .release])
  else
    ({ s with sync_queue := [] },
     s.sync_queue.map (fun it => (it, (sync_item env it).1)),
     .acquire :: .print (.syncingChanges s.sync_queue.length) ::
       ((s.sync_queue.map (fun it => (sync_item env it).2)).flatten ++
        [.print .syncCompleted, .release]))

/-- True on the outcomes in which the item completed without an error
report: a successful remote operation, or a skip. -/
def isSuccessOutcome : Outcome → Bool
  | .fileDeleted _ => true
  | .fileUpdated _ => true
  | .fileCreated _ => true
  | .skippedDeleteStillExists => true
  | .skippedUploadMissing => true
  | .errorDeleting _ => false
  | .errorUploading _ => false

/-- True on the two silent skip outcomes (no remote call, no print). -/
def isSkipOutcome : Outcome → Bool
  | .skippedDeleteStillExists => true
  | .skippedUploadMissing => true
  | _ => false

/-- The remote calls appearing anywhere in a step trace, in order. -/
def remoteCalls (steps : List Step) : List RemoteCall :=
  steps.filterMap (fun st =>
    match st with
    | .call c => some c
    | _ => none)

/-- The printed messages appearing in a step trace, in order. -/
def printsOf (steps : List Step) : List PrintMsg :=
  steps.filterMap (fun st =>
    match st with
    | .print m => some m
    | _ => none)

/-- True on the messages naming one particular path (success or error),
false on the batch-level banner and footer messages. -/
def perPathMsg : PrintMsg → Bool
  | .updatedMsg _ => true
  | .createdMsg _ => true
  | .deletedMsg _ => true
  | .errorUploadingMsg _ => true
  | .errorDeletingMsg _ => true
  | .syncErrorMsg _ => true
  | .syncingChanges _ => false
  | .syncCompleted => false

/-- Scan of a step trace tracking whether the lock is held, collecting
the remote calls issued while it is. -/
def callsLockedFrom : Bool → List Step → List RemoteCall
  | _, [] => []
  | _, .acquire :: rest => callsLockedFrom true rest
  | _, .release :: rest => callsLockedFrom false rest
  | held, .call c :: rest =>
    if held then c :: callsLockedFrom held rest else callsLockedFrom held rest
  | held, _ :: rest => callsLockedFrom held rest

/-- The remote calls a trace issues while the sync lock is held. -/
def callsWhileLocked (steps : List Step) : List RemoteCall :=
  callsLockedFrom false steps

/-- The queue entries whose path component is p. -/
def entriesFor (q : List (String × String)) (p : String) :
    List (String × String) :=
  q.filter (fun it => it.1 = p)

/-- An event of a run of the monitor: either queue_sync is called at
time t for a path and an action string, or the timer armed for deadline
t fires and runs sync_changes. -/
inductive MEv where
  | record (t : Nat) (p a : String)
  | fire (t : Nat)
deriving DecidableEq, Repr

/-- The state after one timer fire: sync_changes runs, and the fired
deadline is spent (a threading.Timer fires at most once). -/
def fire_step (env : Env) (s : MState) : MState :=
  { (sync_changes env s).1 with sync_timer := none }

/-- Run of a list of events.  A record step is always possible; a fire
step is possible only when the armed timer has exactly that deadline
(a cancelled timer never fires, and arming overwrites the single timer
slot), otherwise the whole run is rejected as none. -/
def runOk (env : Env) : MState → List MEv → Option MState
  | s, [] => some s
  | s, .record t p a :: evs => runOk env (queue_sync s t p a) evs
  | s, .fire t :: evs =>
    if s.sync_timer = some t then runOk env (fire_step env s) evs else none

/-- Quietness of a run with respect to the time of the latest record
seen so far: every fire happens exactly 30 seconds after the most recent
record before it. -/
def firesQuiet : Option Nat → List MEv → Prop
  | _, [] => True
  | _, .record t _ _ :: evs => firesQuiet (some t) evs
  | last, .fire t :: evs =>
    (∃ tr, last = some tr ∧ t = tr + 30) ∧ firesQuiet last evs

/-- The empty starting state of the monitor (source lines 18-21). -/
def initState : MState :=
  { sync_queue := [], sync_timer := none }

end FolderMonitor

namespace FolderMonitorTest

open FolderMonitor

/-- Concrete world: one file a.txt present under the root, remote copy
present with revision token sha1, all remote calls succeeding. -/
def envHappy : Env :=
  { local_folder := "root"
    fs := fun p => if p = "root/a.txt" then some [1, 2] else none
    getContents := fun gp =>
      if gp = "a.txt" then Except.ok { sha := "sha1" } else Except.error .notFound
    updateFile := fun _ _ _ => Except.ok ()
    createFile := fun _ _ => Except.ok ()
    deleteRemote := fun _ _ => Except.ok () }

/-- Concrete world: no local files, remote reporting every path absent. -/
def envAbsent : Env :=
  { local_folder := "root"
    fs := fun _ => none
    getContents := fun _ => Except.error .notFound
    updateFile := fun _ _ _ => Except.ok ()
    createFile := fun _ _ => Except.ok ()
    deleteRemote := fun _ _ => Except.ok () }

/-- Concrete world: a.txt present locally, the remote lookup failing
with a transport error, create succeeding. -/
def envNet : Env :=
  { local_folder := "root"
    fs := fun p => if p = "root/a.txt" then some [7] else none
    getContents := fun _ => Except.error .network
    updateFile := fun _ _ _ => Except.ok ()
    createFile := fun _ _ => Except.ok ()
    deleteRemote := fun _ _ => Except.ok () }

/-- Concrete world: no local files; the remote lookup fails with a
transport error for bad.txt and succeeds for b.txt, so a batch deleting
both has one failing item and one succeeding item. -/
def envOneBad : Env :=
  { local_folder := "root"
    fs := fun _ => none
    getContents := fun gp =>
      if gp = "b.txt" then Except.ok { sha := "shb" } else Except.error .network
    updateFile := fun _ _ _ => Except.ok ()
    createFile := fun _ _ => Except.ok ()
    deleteRemote := fun _ _ => Except.ok () }

/-- A batch holding two queued deletes, the first of which will fail
against envOneBad and the second of which will succeed. -/
def sOneBad : MState :=
  { sync_queue := [("root/bad.txt", "deleted"), ("root/b.txt", "deleted")],
    sync_timer := some 30 }

/-- A batch holding one queued delete for a path that still exists in
envHappy, so the flush silently skips it. -/
def sSkipDelete : MState :=
  { sync_queue := [("root/a.txt", "deleted")], sync_timer := some 30 }

/-- A batch holding one queued created action for a.txt. -/
def sUpload : MState :=
  { sync_queue := [("root/a.txt", "created")], sync_timer := some 30 }

end FolderMonitorTest

open FolderMonitor FolderMonitorTest

/-- Helper fact about Python set add: the added element is a member of
the result. -/
theorem mem_insertOnce_self (q : List (String × String)) (x : String × String) :
    x ∈ insertOnce q x := by
  unfold insertOnce
  split
  · assumption
  · simp

/-- Helper fact about Python set add: adding a member leaves the set
unchanged. -/
theorem insertOnce_of_mem (q : List (String × String)) (x : String × String)
    (h : x ∈ q) : insertOnce q x = q := by
  simp [insertOnce, h]

@[simp]
theorem remoteCalls_nil : remoteCalls [] = [] := rfl

@[simp]
theorem remoteCalls_cons_acquire (l : List Step) :
    remoteCalls (Step.acquire :: l) = remoteCalls l := rfl

@[simp]
theorem remoteCalls_cons_release (l : List Step) :
    remoteCalls (Step.release :: l) = remoteCalls l := rfl

@[simp]
theorem remoteCalls_cons_check (p : String) (b : Bool) (l : List Step) :
    remoteCalls (Step.checkExists p b :: l) = remoteCalls l := rfl

@[simp]
theorem remoteCalls_cons_call (c : RemoteCall) (l : List Step) :
    remoteCalls (Step.call c :: l) = c :: remoteCalls l := rfl

@[simp]
theorem remoteCalls_cons_print (m : PrintMsg) (l : List Step) :
    remoteCalls (Step.print m :: l) = remoteCalls l := rfl

@[simp]
theorem remoteCalls_append (l m : List Step) :
    remoteCalls (l ++ m) = remoteCalls l ++ remoteCalls m := by
  simp [remoteCalls, List.filterMap_append]

@[simp]
theorem printsOf_nil : printsOf [] = [] := rfl

@[simp]
theorem printsOf_cons_acquire (l : List Step) :
    printsOf (Step.acquire :: l) = printsOf l := rfl

@[simp]
theorem printsOf_cons_release (l : List Step) :
    printsOf (Step.release :: l) = printsOf l := rfl

@[simp]
theorem printsOf_cons_check (p : String) (b : Bool) (l : List Step) :
    printsOf (Step.checkExists p b :: l) = printsOf l := rfl

@[simp]
theorem printsOf_cons_call (c : RemoteCall) (l : List Step) :
    printsOf (Step.call c :: l) = printsOf l := rfl

@[simp]
theorem printsOf_cons_print (m : PrintMsg) (l : List Step) :
    printsOf (Step.print m :: l) = m :: printsOf l := rfl

@[simp]
theorem callsLockedFrom_nil (b : Bool) : callsLockedFrom b [] = [] := rfl

@[simp]
theorem callsLockedFrom_acquire (b : Bool) (l : List Step) :
    callsLockedFrom b (Step.acquire :: l) = callsLockedFrom true l := rfl

@[simp]
theorem callsLockedFrom_release (b : Bool) (l : List Step) :
    callsLockedFrom b (Step.release :: l) = callsLockedFrom false l := rfl

@[simp]
theorem callsLockedFrom_check (b : Bool) (p : String) (r : Bool) (l : List Step) :
    callsLockedFrom b (Step.checkExists p r :: l) = callsLockedFrom b l := rfl

@[simp]
theorem callsLockedFrom_print (b : Bool) (m : PrintMsg) (l : List Step) :
    callsLockedFrom b (Step.print m :: l) = callsLockedFrom b l := rfl

@[simp]
theorem callsLockedFrom_call_true (c : RemoteCall) (l : List Step) :
    callsLockedFrom true (Step.call c :: l) = c :: callsLockedFrom true l := rfl

/-- Helper: the steps of upload_file are only remote calls and prints,
never lock operations. -/
theorem upload_file_clean (env : Env) (p : String) :
    ∀ st ∈ (upload_file env p).2, st ≠ Step.acquire ∧ st ≠ Step.release := by
  unfold upload_file
  split
  · simp
  · split
    · simp
    · split
      · split
        · simp
        · split <;> simp
      · split <;> simp

/-- Helper: the steps of delete_file are only remote calls and prints,
never lock operations. -/
theorem delete_file_clean (env : Env) (p : String) :
    ∀ st ∈ (delete_file env p).2, st ≠ Step.acquire ∧ st ≠ Step.release := by
  unfold delete_file
  split
  · simp
  · split
    · simp
    · split <;> simp

/-- Helper: the steps of one loop iteration of sync_changes never touch
the lock. -/
theorem sync_item_clean (env : Env) (it : String × String) :
    ∀ st ∈ (sync_item env it).2, st ≠ Step.acquire ∧ st ≠ Step.release := by
  unfold sync_item
  split
  · split
    · simp
    · intro st hst
      rcases List.mem_cons.mp hst with h | h
      · simp [h]
      · exact delete_file_clean env it.1 st h
  · split
    · intro st hst
      rcases List.mem_cons.mp hst with h | h
      · simp [h]
      · exact upload_file_clean env it.1 st h
    · simp

/-- Helper: upload_file never yields a skip outcome. -/
theorem upload_file_not_skip (env : Env) (p : String) :
    isSkipOutcome (upload_file env p).1 = false := by
  unfold upload_file
  split
  · rfl
  · split
    · rfl
    · split
      · split
        · rfl
        · split <;> rfl
      · split <;> rfl

/-- Helper: delete_file never yields a skip outcome. -/
theorem delete_file_not_skip (env : Env) (p : String) :
    isSkipOutcome (delete_file env p).1 = false := by
  unfold delete_file
  split
  · rfl
  · split
    · rfl
    · split <;> rfl

/-- Helper: every branch of upload_file prints exactly one per-path
message. -/
theorem upload_file_prints (env : Env) (p : String) :
    (printsOf (upload_file env p).2).any perPathMsg = true := by
  unfold upload_file
  split
  · rfl
  · split
    · rfl
    · split
      · split
        · rfl
        · split <;> rfl
      · split <;> rfl

/-- Helper: every branch of delete_file prints exactly one per-path
message. -/
theorem delete_file_prints (env : Env) (p : String) :
    (printsOf (delete_file env p).2).any perPathMsg = true := by
  unfold delete_file
  split
  · rfl
  · split
    · rfl
    · split <;> rfl

/-- C1: the claimed invariant, at most one pending entry per distinct
path with the latest event overwriting, fails on the code: the batch is
a set of pairs of path and action, so recording Created and then
Modified for a.txt leaves two entries for a.txt, not one. -/
theorem C1_counterexample :
    ¬ (entriesFor
        ((queue_sync (queue_sync initState 0 "a.txt" "created")
          5 "a.txt" "modified").sync_queue) "a.txt").length ≤ 1 := by
  decide

/-- C1 amended: the batch deduplicates by the whole pair of path and
action, not by path: for a path with no prior entries, recording Created
then Modified leaves exactly the two entries (p, created) and
(p, modified) queued for that path. -/
theorem C1_amended (s : MState) (t u : Nat) (p : String)
    (h : entriesFor s.sync_queue p = []) :
    entriesFor ((queue_sync (queue_sync s t p "created")
        u p "modified").sync_queue) p = [(p, "created"), (p, "modified")] := by
  have hnot : ∀ a : String, (p, a) ∉ s.sync_queue := by
    intro a hmem
    have : (p, a) ∈ entriesFor s.sync_queue p := by
      simp [entriesFor, List.mem_filter, hmem]
    simp [h] at this
  have h1 : insertOnce s.sync_queue (p, "created")
      = s.sync_queue ++ [(p, "created")] := by
    rw [insertOnce, if_neg (hnot "created")]
  have h2 : insertOnce (s.sync_queue ++ [(p, "created")]) (p, "modified")
      = s.sync_queue ++ [(p, "created")] ++ [(p, "modified")] := by
    rw [insertOnce, if_neg]
    simp [hnot "modified"]
  show entriesFor (insertOnce (insertOnce s.sync_queue (p, "created"))
      (p, "modified")) p = _
  rw [h1, h2]
  unfold entriesFor at h ⊢
  simp [List.filter_append, h]

/-- C1 amended, witness at a concrete input: starting from the empty
state the two records leave exactly the two entries. -/
theorem C1_amended_witness :
    entriesFor ((queue_sync (queue_sync initState 0 "a.txt" "created")
        5 "a.txt" "modified").sync_queue) "a.txt"
      = [("a.txt", "created"), ("a.txt", "modified")] :=
  C1_amended initState 0 5 "a.txt" (by decide)

/-- C2: at flush time every action re-checks local existence first (the
head of the item trace is the existence check), a deleted action is
skipped with no remote call while the path still exists on disk, and a
non-deleted action whose path no longer exists is skipped without any
error report. -/
theorem C2_recheck_local_existence (env : Env) (path action : String) :
    (sync_item env (path, action)).2.head?
        = some (.checkExists path ((env.fs path).isSome)) ∧
    ((env.fs path).isSome = true →
      sync_item env (path, "deleted")
        = (.skippedDeleteStillExists, [.checkExists path true])) ∧
    (action ≠ "deleted" → (env.fs path).isSome = false →
      sync_item env (path, action)
        = (.skippedUploadMissing, [.checkExists path false])) := by
  refine ⟨?_, ?_, ?_⟩
  · unfold sync_item
    split <;> split <;> simp_all
  · intro hex
    simp [sync_item, hex]
  · intro hact hex
    simp [sync_item, hact, hex]

/-- C2 witness at concrete inputs: with a.txt on disk the queued delete
is skipped with only the existence check in its trace, and with a.txt
absent the queued created action is skipped the same way. -/
theorem C2_witness :
    sync_item envHappy ("root/a.txt", "deleted")
        = (.skippedDeleteStillExists, [.checkExists "root/a.txt" true]) ∧
    sync_item envAbsent ("root/a.txt", "created")
        = (.skippedUploadMissing, [.checkExists "root/a.txt" false]) :=
  ⟨(C2_recheck_local_existence envHappy "root/a.txt" "deleted").2.1 (by decide),
   (C2_recheck_local_existence envAbsent "root/a.txt" "created").2.2
     (by decide) (by decide)⟩

/-- C3: the claim fails on the code: when the remote lookup inside
delete_file reports NotFound, the catch-all handler reports a delete
error for the path; the outcome is the error report, not a success. -/
theorem C3_counterexample :
    (delete_file envAbsent "root/a.txt").1 = .errorDeleting "root/a.txt" ∧
    ¬ isSuccessOutcome (delete_file envAbsent "root/a.txt").1 = true := by
  decide

/-- C3 amended: a NotFound from the remote lookup during a delete is
caught by the same catch-all as any other failure: the action completes
with a printed delete-error report for the path, no remote delete call
is issued, and nothing propagates to abort the flush; it is not treated
as a distinguished success. -/
theorem C3_amended (env : Env) (file_path github_path : String)
    (h1 : get_github_file_path env.local_folder file_path = some github_path)
    (h2 : env.getContents github_path = Except.error GhError.notFound) :
    delete_file env file_path
      = (.errorDeleting file_path,
         [.call (.getContents github_path),
          .print (.errorDeletingMsg file_path)]) := by
  simp [delete_file, h1, h2]

/-- C3 amended, witness: with the remote reporting every path absent,
deleting a.txt ends in the delete-error report with only the lookup in
its call trace. -/
theorem C3_amended_witness :
    delete_file envAbsent "root/a.txt"
      = (.errorDeleting "root/a.txt",
         [.call (.getContents "a.txt"),
          .print (.errorDeletingMsg "root/a.txt")]) :=
  C3_amended envAbsent "root/a.txt" "a.txt" (by decide) rfl

/-- C4: even when some queued item fails, the flush attempts every item
of the batch in order, producing one outcome per item, and the batch is
cleared at the end of the flush regardless of the outcomes. -/
theorem C4_failure_isolation (env : Env) (s : MState)
    (hfail : ∃ it ∈ s.sync_queue, isSuccessOutcome (sync_item env it).1 = false) :
    (sync_changes env s).1.sync_queue = [] ∧
    (sync_changes env s).2.1
        = s.sync_queue.map (fun it => (it, (sync_item env it).1)) ∧
    (sync_changes env s).2.1.length = s.sync_queue.length := by
  obtain ⟨it, hit, _⟩ := hfail
  have hne : s.sync_queue ≠ [] := by
    intro h
    rw [h] at hit
    simp at hit
  refine ⟨?_, ?_, ?_⟩ <;> simp [sync_changes, hne]

/-- C4 witness: with the delete of bad.txt failing on the remote lookup
and the delete of b.txt succeeding, the flush still yields one outcome
per item and ends with an empty batch. -/
theorem C4_witness :
    (sync_changes envOneBad sOneBad).1.sync_queue = [] ∧
    (sync_changes envOneBad sOneBad).2.1
        = sOneBad.sync_queue.map (fun it => (it, (sync_item envOneBad it).1)) ∧
    (sync_changes envOneBad sOneBad).2.1.length = sOneBad.sync_queue.length :=
  C4_failure_isolation envOneBad sOneBad
    ⟨("root/bad.txt", "deleted"), by decide, by decide⟩

/-- C5: uploading an existing path uses the full current bytes of the
file, performs the remote lookup at apply time, and issues an update
keyed by exactly the revision token that lookup returned when the remote
file exists, or a create when the lookup reports it absent. -/
theorem C5_upload_update_or_create (env : Env) (file_path github_path : String)
    (content : Bytes)
    (h1 : get_github_file_path env.local_folder file_path = some github_path)
    (h2 : env.fs file_path = some content) :
    (∀ c : Contents, env.getContents github_path = Except.ok c →
      env.updateFile github_path content c.sha = Except.ok () →
      upload_file env file_path
        = (.fileUpdated github_path,
           [.call (.getContents github_path),
            .call (.updateFile github_path content c.sha),
            .print (.updatedMsg github_path)])) ∧
    (env.getContents github_path = Except.error GhError.notFound →
      env.createFile github_path content = Except.ok () →
      upload_file env file_path
        = (.fileCreated github_path,
           [.call (.getContents github_path),
            .call (.createFile github_path content),
            .print (.createdMsg github_path)])) := by
  constructor
  · intro c hc hu
    simp [upload_file, h1, h2, hc, hu]
  · intro hc hcr
    simp [upload_file, h1, h2, hc, hcr]

/-- C5 witness: in the happy world the upload of a.txt issues exactly
the lookup and then the update keyed by the token sha1 the lookup
returned. -/
theorem C5_witness :
    upload_file envHappy "root/a.txt"
      = (.fileUpdated "a.txt",
         [.call (.getContents "a.txt"),
          .call (.updateFile "a.txt" [1, 2] "sha1"),
          .print (.updatedMsg "a.txt")]) :=
  (C5_upload_update_or_create envHappy "root/a.txt" "a.txt" [1, 2]
    (by decide) (by decide)).1 { sha := "sha1" } rfl rfl

/-- C6: each record arms the timer to exactly thirty seconds after the
call, so the countdown restarts from zero; the single timer slot means
an old deadline can no longer fire once a new record has re-armed it;
and in any accepted run every flush fires exactly thirty seconds after
the most recent record before it, never mid-burst. -/
theorem C6_debounce_quiet :
    (∀ s now p a, (queue_sync s now p a).sync_timer = some (now + 30)) ∧
    (∀ env s now p a t evs, t ≠ now + 30 →
      runOk env (queue_sync s now p a) (MEv.fire t :: evs) = none) ∧
    (∀ env evs s last,
      (s.sync_timer = none ∨
        ∃ tr, last = some tr ∧ s.sync_timer = some (tr + 30)) →
      runOk env s evs ≠ none → firesQuiet last evs) := by
  refine ⟨fun s now p a => rfl, ?_, ?_⟩
  · intro env s now p a t evs ht
    have hne : ¬ ((queue_sync s now p a).sync_timer = some t) := by
      simp [queue_sync]
      exact fun h => ht h.symm
    simp [runOk, hne]
  · intro env evs
    induction evs with
    | nil =>
      intro s last hinv hrun
      trivial
    | cons ev rest ih =>
      intro s last hinv hrun
      cases ev with
      | record t p a =>
        show firesQuiet (some t) rest
        have hrun' : runOk env (queue_sync s t p a) rest ≠ none := hrun
        exact ih (queue_sync s t p a) (some t) (Or.inr ⟨t, rfl, rfl⟩) hrun'
      | fire t =>
        by_cases hT : s.sync_timer = some t
        · have hrun' : runOk env (fire_step env s) rest ≠ none := by
            simpa [runOk, hT] using hrun
          rcases hinv with hnone | ⟨tr, hlast, htimer⟩
          · rw [hnone] at hT
            cases hT
          · rw [htimer] at hT
            have ht : t = tr + 30 := (Option.some.injEq _ _ ▸ hT).symm
            exact ⟨⟨tr, hlast, ht⟩, ih (fire_step env s) last (Or.inl rfl) hrun'⟩
        · exact absurd (by simp [runOk, hT]) hrun

/-- C6 witness: two records at times 0 and 10 followed by a fire at 40
form an accepted run from the empty state, and that run is quiet: its
fire is exactly thirty seconds after the latest record. -/
theorem C6_witness :
    firesQuiet none
      [MEv.record 0 "root/a.txt" "created",
       MEv.record 10 "root/a.txt" "modified",
       MEv.fire 40] :=
  C6_debounce_quiet.2.2 envHappy
    [MEv.record 0 "root/a.txt" "created",
     MEv.record 10 "root/a.txt" "modified",
     MEv.fire 40]
    initState none (Or.inl rfl) (by decide)

/-- C7: the claim fails on the code: a flush of a batch whose only item
is a delete for a path that still exists on disk prints no per-path
report at all, so the per-path result is silently swallowed (and the
code has no reporting callback, only prints). -/
theorem C7_counterexample :
    ¬ ∀ it ∈ sSkipDelete.sync_queue,
        ∃ m ∈ printsOf (sync_changes envHappy sSkipDelete).2.2,
          perPathMsg m = true := by
  decide

/-- C7 amended: a flush prints exactly the attempted actions: an item
produces a per-path message, success or error, precisely when it is not
one of the two silent skips (delete of a still-existing path, upload of
a missing path); skipped items leave no per-path trace, and reporting is
by printing, not a callback. -/
theorem C7_amended (env : Env) (item : String × String) :
    (printsOf (sync_item env item).2).any perPathMsg
      = !(isSkipOutcome (sync_item env item).1) := by
  unfold sync_item
  split
  · split
    · rfl
    · simp [delete_file_prints, delete_file_not_skip]
  · split
    · simp [upload_file_prints, upload_file_not_skip]
    · rfl

/-- C8: the claim fails on the code: sync_changes holds the sync lock
for its whole body, so the remote calls of the apply phase happen inside
the critical section, not outside it: flushing the queued created action
for a.txt issues its remote calls while the lock is held. -/
theorem C8_counterexample :
    ¬ callsWhileLocked (sync_changes envHappy sUpload).2.2 = [] := by
  decide

/-- Helper: scanning a lock-free step list that ends in the release
collects exactly its remote calls. -/
theorem callsLockedFrom_clean_concat (l : List Step)
    (h : ∀ st ∈ l, st ≠ Step.acquire ∧ st ≠ Step.release) :
    callsLockedFrom true (l ++ [Step.release]) = remoteCalls l := by
  induction l with
  | nil => rfl
  | cons st rest ih =>
    have hst := h st (by simp)
    have hrest : ∀ x ∈ rest, x ≠ Step.acquire ∧ x ≠ Step.release :=
      fun x hx => h x (by simp [hx])
    cases st with
    | acquire => exact absurd rfl hst.1
    | release => exact absurd rfl hst.2
    | call c => simp [ih hrest]
    | checkExists p b => simp [ih hrest]
    | print m => simp [ih hrest]

/-- Helper: the last element of a trace of this bracketed shape is the
release of the lock. -/
theorem getLast_release (l : List Step) (a b c : Step) :
    (a :: b :: (l ++ [c, Step.release])).getLast? = some Step.release := by
  have h : a :: b :: (l ++ [c, Step.release])
      = (a :: b :: (l ++ [c])) ++ [Step.release] := by
    simp
  rw [h, List.getLast?_concat]

/-- C8 amended: the flush runs entirely inside the critical section:
its trace is bracketed by the lock acquire and release, every remote
call it issues happens while the lock is held, and the batch is cleared
at the end of the flush under the same lock, with no swap to a fresh
batch before the apply phase. -/
theorem C8_amended (env : Env) (s : MState) :
    callsWhileLocked (sync_changes env s).2.2
        = remoteCalls (sync_changes env s).2.2 ∧
    (sync_changes env s).2.2.head? = some Step.acquire ∧
    (sync_changes env s).2.2.getLast? = some Step.release ∧
    (sync_changes env s).1.sync_queue = [] := by
  by_cases hq : s.sync_queue = []
  · have htr : (sync_changes env s).2.2 = [Step.acquire, Step.release] := by
      simp [sync_changes, hq]
    have hqueue : (sync_changes env s).1.sync_queue = [] := by
      simp [sync_changes, hq]
    refine ⟨?_, ?_, ?_, hqueue⟩ <;> rw [htr] <;> decide
  · have hclean : ∀ st ∈ (s.sync_queue.map (fun it => (sync_item env it).2)).flatten,
        st ≠ Step.acquire ∧ st ≠ Step.release := by
      intro st hst
      obtain ⟨l, hl, hstl⟩ := List.mem_flatten.mp hst
      obtain ⟨it, _, rfl⟩ := List.mem_map.mp hl
      exact sync_item_clean env it st hstl
    have htrace : (sync_changes env s).2.2
        = Step.acquire :: Step.print (.syncingChanges s.sync_queue.length) ::
          ((s.sync_queue.map (fun it => (sync_item env it).2)).flatten ++
           [Step.print .syncCompleted, Step.release]) := by
      simp [sync_changes, hq]
    have hsplit : (s.sync_queue.map (fun it => (sync_item env it).2)).flatten ++
          [Step.print PrintMsg.syncCompleted, Step.release]
        = ((s.sync_queue.map (fun it => (sync_item env it).2)).flatten ++
           [Step.print PrintMsg.syncCompleted]) ++ [Step.release] := by
      simp
    have hcleanp : ∀ st ∈ (s.sync_queue.map (fun it => (sync_item env it).2)).flatten ++
          [Step.print PrintMsg.syncCompleted],
        st ≠ Step.acquire ∧ st ≠ Step.release := by
      intro st hst
      rcases List.mem_append.mp hst with h | h
      · exact hclean st h
      · simp at h
        simp [h]
    refine ⟨?_, ?_, ?_, ?_⟩
    · rw [htrace]
      show callsLockedFrom true _ = _
      simp only [callsLockedFrom_print]
      rw [hsplit, callsLockedFrom_clean_concat _ hcleanp]
      simp
    · rw [htrace]
      rfl
    · rw [htrace]
      exact getLast_release _ _ _ _
    · simp [sync_changes, hq]

/-- C9: any failure of the remote existence lookup during an upload, a
transport error included, sends control to the create branch: the create
call for the current bytes is issued, and the outcome is determined by
the create, never a report of the lookup failure itself. -/
theorem C9_lookup_failure_creates (env : Env) (file_path github_path : String)
    (content : Bytes) (e : GhError)
    (h1 : get_github_file_path env.local_folder file_path = some github_path)
    (h2 : env.fs file_path = some content)
    (h3 : env.getContents github_path = Except.error e) :
    Step.call (.createFile github_path content) ∈ (upload_file env file_path).2 ∧
    ((upload_file env file_path).1 = .fileCreated github_path ∨
     (upload_file env file_path).1 = .errorUploading file_path) := by
  cases hcr : env.createFile github_path content <;>
    simp [upload_file, h1, h2, h3, hcr]

/-- C9 witness: with the lookup failing with a transport error and the
create succeeding, uploading a.txt issues the create and reports the
file created. -/
theorem C9_witness :
    Step.call (.createFile "a.txt" [7]) ∈ (upload_file envNet "root/a.txt").2 ∧
    ((upload_file envNet "root/a.txt").1 = .fileCreated "a.txt" ∨
     (upload_file envNet "root/a.txt").1 = .errorUploading "root/a.txt") :=
  C9_lookup_failure_creates envNet "root/a.txt" "a.txt" [7] .network
    (by decide) (by decide) rfl

/-- C10: recording the same pair of path and action twice is idempotent
on the pending batch: the queue after the repeated record equals the
queue after the first, and only the timer is re-armed, to thirty seconds
past the second call. -/
theorem C10_record_idempotent (s : MState) (t u : Nat) (p a : String) :
    (queue_sync (queue_sync s t p a) u p a).sync_queue
        = (queue_sync s t p a).sync_queue ∧
    (queue_sync (queue_sync s t p a) u p a).sync_timer = some (u + 30) := by
  refine ⟨?_, rfl⟩
  show insertOnce (insertOnce s.sync_queue (p, a)) (p, a)
      = insertOnce s.sync_queue (p, a)
  exact insertOnce_of_mem _ _ (mem_insertOnce_self s.sync_queue (p, a))
